import Mathlib

/-!
Verification of the VibePN networked runtime against its source.

Shallow embedding of the Go sources:
* `netgraph/routes.go`      — route table (`Route`, `AddRoute`, `RemoveRoutesForPeer`,
  `RemoveRoute`, `RoutesForNetwork`)
* `peer/registry.go`        — peer registry `Add` with nonce tie-break
* `crypto` (`peer_tls.go`, TOFU file) — `verifyTOFU` certificate pinning callback
* `control/send.go`         — `SendHello` wire encoding
* `peer/manager.go`         — `HandleControlStream` control reader,
  `handleRouteAnnounce`, `handleRouteWithdraw`, `handleKeepalive`
* `forward` dispatcher      — `lookupRoute` first-match forwarding lookup
* `control/handlers.go`     — admin `reload` command handler

Go strings are Lean `String`s, byte sequences are `List Nat` (each < 256),
Go maps are total functions into `Option`, `time.Time` is `Int`.
-/

namespace VibePN

/-! ## Route table (netgraph/routes.go) -/

/-- `netgraph.Route`. Field `pfx` embeds the Go field `Prefix` (a textual CIDR);
`expiresAt` embeds `ExpiresAt time.Time` as an integer instant. -/
structure Route where
  network : String
  pfx : String
  peerID : String
  metric : Nat
  expiresAt : Int
deriving DecidableEq, Repr

/-- `netgraph.RouteTable.routes`: Go map network → []Route. A missing key and a
key holding an empty slice are observationally identical in Go (range over nil is
empty), so the table is a total function defaulting to `[]`. -/
def RouteTable := String → List Route

def emptyTable : RouteTable := fun _ => []

/-- The loop body of `RouteTable.AddRoute` on one network's slice: replace the
first entry with the same `(Prefix, PeerID)` in place, else append. -/
def addRouteList (r : Route) : List Route → List Route
  | [] => [r]
  | x :: xs =>
      if x.pfx = r.pfx ∧ x.peerID = r.peerID then r :: xs
      else x :: addRouteList r xs

/-- `RouteTable.AddRoute` (netgraph/routes.go lines 27-41). -/
def addRoute (t : RouteTable) (r : Route) : RouteTable :=
  fun n => if n = r.network then addRouteList r (t n) else t n

/-- `RouteTable.RemoveRoutesForPeer` (netgraph/routes.go lines 43-56): filter
every network's slice, keeping routes of other peers. -/
def removeRoutesForPeer (peerID : String) (t : RouteTable) : RouteTable :=
  fun n => (t n).filter (fun x => x.peerID ≠ peerID)

/-- `RouteTable.RemoveRoute(network, prefix)` (netgraph revision in
src/unnamed/part_020): drop every route with the given prefix in one network. -/
def removeRoute (network pfxStr : String) (t : RouteTable) : RouteTable :=
  fun n => if n = network then (t n).filter (fun x => x.pfx ≠ pfxStr) else t n

/-- `RouteTable.RoutesForNetwork` (netgraph/routes.go lines 58-70): snapshot of
one network's routes, skipping `excludePeer` when it is nonempty. -/
def routesForNetwork (t : RouteTable) (network excludePeer : String) : List Route :=
  (t network).filter (fun r => !(excludePeer ≠ "" && r.peerID == excludePeer))

/-- Key on which `AddRoute` deduplicates within one network's slice. -/
def routeKey (r : Route) : String × String := (r.pfx, r.peerID)

/-- The claimed table invariant: in every network's slice, `(Prefix, PeerID)`
keys are pairwise distinct (with the network key, this is
"no (network, prefix, peer) duplicates"). -/
def NodupTable (t : RouteTable) : Prop :=
  ∀ n : String, ((t n).map routeKey).Nodup

/-! ## Forwarding lookup (forward dispatcher `lookupRoute`) -/

/-- Split a character list on a separator (Go `strings.Split`). -/
def splitOnChar (sep : Char) : List Char → List (List Char)
  | [] => [[]]
  | c :: rest =>
      let r := splitOnChar sep rest
      if c = sep then [] :: r
      else
        match r with
        | [] => [[c]]
        | g :: gs => (c :: g) :: gs

/-- Parse a nonempty decimal digit string (Go `strconv.Atoi` on the
non-negative inputs the address grammar produces). -/
def decDigitsToNat? (cs : List Char) : Option Nat :=
  if cs.isEmpty then none
  else
    cs.foldl
      (fun acc c =>
        match acc with
        | none => none
        | some n =>
            if 48 ≤ c.toNat ∧ c.toNat ≤ 57 then some (n * 10 + (c.toNat - 48))
            else none)
      (some 0)

/-- Go `net.ParseIP` restricted to dotted-quad IPv4, yielding the address as a
number below 2^32. Models the standard library, which the dispatcher calls. -/
def parseIPv4 (s : String) : Option Nat :=
  match (splitOnChar '.' s.data).map decDigitsToNat? with
  | [some x, some y, some z, some w] =>
      if x ≤ 255 ∧ y ≤ 255 ∧ z ≤ 255 ∧ w ≤ 255 then
        some (((x * 256 + y) * 256 + z) * 256 + w)
      else none
  | _ => none

/-- Go `net.ParseCIDR` restricted to IPv4: returns (address, mask length).
Models the standard library call in `lookupRoute`. -/
def parseCIDR (s : String) : Option (Nat × Nat) :=
  match splitOnChar '/' s.data with
  | [ipCs, maskCs] =>
      match parseIPv4 (String.mk ipCs), decDigitsToNat? maskCs with
      | some ip, some n => if n ≤ 32 then some (ip, n) else none
      | _, _ => none
  | _ => none

/-- The top `n` bits of a 32-bit address. -/
def maskedBits (ip n : Nat) : Nat := ip / 2 ^ (32 - n)

/-- Go `IPNet.Contains`: the destination agrees with the network address on the
mask bits. -/
def cidrContains (ip n dst : Nat) : Bool := maskedBits dst n == maskedBits ip n

/-- One route matches a destination iff its prefix parses as a CIDR containing
the destination (`lookupRoute` skips unparseable prefixes via `continue`). -/
def routeMatches (dst : Nat) (r : Route) : Bool :=
  match parseCIDR r.pfx with
  | none => false
  | some (ip, n) => cidrContains ip n dst

/-- The for-loop of `Dispatcher.lookupRoute`: first route whose prefix parses
and contains the destination. -/
def lookupLoop (dst : Nat) : List Route → Option Route
  | [] => none
  | r :: rs =>
      match parseCIDR r.pfx with
      | none => lookupLoop dst rs
      | some (ip, n) => if cidrContains ip n dst then some r else lookupLoop dst rs

/-- `Dispatcher.lookupRoute(network, ip)`: iterate
`RoutesForNetwork(network, "")` in order. The destination is taken as an
already-parsed IPv4 number (the dispatcher passes `dst.String()` of a valid
IPv4 address, which reparses to the same address). -/
def lookupRoute (t : RouteTable) (network : String) (dst : Nat) : Option Route :=
  lookupLoop dst (routesForNetwork t network "")

/-! ## Peer registry (peer/registry.go) -/

/-- Result of `Registry.Add`: the connection map afterwards and the
`CloseWithError` calls issued, as (connection, reason) pairs. Connections are
identified by numbers; the Go `r.conns` map is a total function into `Option`. -/
structure AddResult where
  conns : String → Option Nat
  closed : List (Nat × String)

/-- `Registry.Add(peerID, conn, myNonce)` (peer/registry.go lines 55-90).
`peerNonces` is the package-level nonce map read through `getPeerNonce`.
The watcher goroutine and `onConnect` callback carry no registry state. -/
def registryAdd (conns : String → Option Nat) (peerNonces : String → Option Nat)
    (peerID : String) (conn : Nat) (myNonce : Nat) : AddResult :=
  match conns peerID with
  | some existing =>
      match peerNonces peerID with
      | none =>
          { conns := conns
            closed := [(conn, "duplicate connection (no peer nonce)")] }
      | some peerNonce =>
          if myNonce < peerNonce then
            { conns := fun p => if p = peerID then some conn else conns p
              closed := [(existing, "duplicate connection (loser)")] }
          else
            { conns := conns
              closed := [(conn, "duplicate connection (loser)")] }
  | none =>
      { conns := fun p => if p = peerID then some conn else conns p
        closed := [] }

/-! ## Trust store / TOFU verification callback (crypto, src/unnamed/part_004) -/

/-- A parsed peer certificate as the callback sees it: `fingerprint` stands for
the lowercase-hex SHA-256 of the DER bytes (`hex.EncodeToString(sha256.Sum256(cert.Raw))`),
`notBefore`/`notAfter` for the x509 validity window, `parseOk` for whether
`x509.ParseCertificate` succeeds on the raw bytes. -/
structure Cert where
  parseOk : Bool
  fingerprint : String
  notBefore : Int
  notAfter : Int
deriving DecidableEq, Repr

/-- The TOFU store `tofuStore : map[peerName]fingerprint`, as loaded in memory. -/
def TofuStore := String → Option String

/-- `verifyTOFU(peerName, ...)` applied to one presented chain
(src/unnamed/part_004 lines 68-102; the `crypto/peer_tls.go` revision of
`LoadPeerTLSWithTOFU` has the same callback body): reject on empty chain or
parse failure; on a pinned name require an exact fingerprint match and leave
the store alone; on an unknown name pin the presented fingerprint. Returns
(accepted, store afterwards). The callback never reads `notBefore`/`notAfter`. -/
def verifyTOFU (store : TofuStore) (peerName : String) (rawCerts : List Cert) :
    Bool × TofuStore :=
  match rawCerts with
  | [] => (false, store)
  | c :: _ =>
      if !c.parseOk then (false, store)
      else
        match store peerName with
        | some pinned =>
            if pinned = c.fingerprint then (true, store) else (false, store)
        | none =>
            (true, fun p => if p = peerName then some c.fingerprint else store p)

/-! ## Wire helpers -/

/-- Big-endian integer of a byte list (`binary.BigEndian.Uint16`/`Uint64`
applied to a slice of the right length). -/
def beUint (bs : List Nat) : Nat := bs.foldl (fun acc b => acc * 256 + b) 0

/-- Go `string(bytes)`, one char per byte (bytes are below 256, hence valid). -/
def bytesToString (bs : List Nat) : String := String.mk (bs.map Char.ofNat)

/-- `config.NetworkConfig` (config package): `Address`, `Prefix`, `Export`. -/
structure NetworkConfig where
  address : String
  pfx : String
  exportFlag : Bool
deriving DecidableEq, Repr

/-! ## Control reader (peer/manager.go) -/

/-- Outcome of decoding one route-announce body: `crash` embeds a Go slice
out-of-range panic, `ok` the route table after the adds. -/
inductive AnnResult
  | crash
  | ok (t : RouteTable)

/-- The tuple loop of `handleRouteAnnounce` (peer/manager.go lines 239-261).
The Go code checks `cursor+5 > len(body)` but then slices
`body[cursor+1 : cursor+1+prefixLen]` and
`body[cursor+1+prefixLen : cursor+1+prefixLen+2]` without bounding
`prefixLen`; each slice whose upper index exceeds `len(body)` panics, embedded
here as `.crash`. -/
def announceLoop (body : List Nat) (networkName peerID : String) (t : RouteTable)
    (cursor : Nat) : AnnResult :=
  if h : cursor < body.length then
    if cursor + 5 > body.length then .ok t
    else
      let pfxLen := body.getD cursor 0
      if cursor + 1 + pfxLen > body.length then .crash
      else if cursor + 1 + pfxLen + 2 > body.length then .crash
      else
        let pfxStr := bytesToString ((body.drop (cursor + 1)).take pfxLen)
        let metric := beUint ((body.drop (cursor + 1 + pfxLen)).take 2)
        announceLoop body networkName peerID
          (addRoute t
            { network := networkName, pfx := pfxStr, peerID := peerID
              metric := metric, expiresAt := 0 })
          (cursor + 1 + pfxLen + 2)
  else .ok t
termination_by body.length - cursor
decreasing_by simp_wf; omega

/-- `handleRouteAnnounce(body, peerID)` (peer/manager.go lines 220-262), acting
on the registered route table. -/
def handleRouteAnnounce (body : List Nat) (peerID : String) (t : RouteTable) :
    AnnResult :=
  if body.length < 2 then .ok t
  else
    let networkLen := body.headD 0
    if body.length < 1 + networkLen then .ok t
    else
      announceLoop body (bytesToString ((body.drop 1).take networkLen)) peerID t
        (1 + networkLen)

/-- `handleRouteWithdraw(body)` (peer/manager.go lines 265-299). Every slice is
bounds-checked by the code before use, so this decoder is total. -/
def handleRouteWithdraw (body : List Nat) (t : RouteTable) : RouteTable :=
  if body.length < 2 then t
  else
    let networkLen := body.headD 0
    if body.length < 1 + networkLen then t
    else
      let networkName := bytesToString ((body.drop 1).take networkLen)
      let cursor := 1 + networkLen
      if body.length ≤ cursor then t
      else
        let pfxLen := body.getD cursor 0
        if cursor + 1 + pfxLen > body.length then t
        else
          removeRoute networkName (bytesToString ((body.drop (cursor + 1)).take pfxLen)) t

/-- State the control reader acts on: the package-level `peerNonces` map, the
registered route table, liveness `UpdatePeer` calls, the registered network
config (`control.GetNetConfig()`), and `SendRouteAnnounce` calls issued as
(network, prefix) pairs. -/
structure CtrlState where
  nonces : String → Option Nat
  table : RouteTable
  live : List String
  netcfg : List (String × NetworkConfig)
  sentAnnounces : List (String × String)

/-- `handleKeepalive(body, peerID)` (peer/manager.go lines 301-317): an
under-length body is logged and ignored; otherwise the peer is marked alive. -/
def handleKeepalive (body : List Nat) (peerID : String) (st : CtrlState) : CtrlState :=
  if body.length < 8 then st else { st with live := peerID :: st.live }

/-- Outcome of one iteration of `HandleControlStream`'s loop:
`closeErr` is `conn.CloseWithError(0, reason)` followed by `return`;
`stopNoClose` is a bare `return` (no close); `crash` a runtime panic inside a
handler; `next` continues the loop with the updated state and remaining bytes. -/
inductive StepOutcome
  | closeErr (reason : String)
  | stopNoClose
  | crash
  | next (st : CtrlState) (rest : List Nat)

/-- One iteration of `HandleControlStream` (peer/manager.go lines 139-217) on a
byte stream: read the 2-byte big-endian length (failure closes with
"control stream closed"), bound it to [1, 4096], read the body (truncation
closes with "invalid control payload"), then dispatch on the type tag
('H' = 72, 'A' = 65, 'W' = 87, 'K' = 75, 'G' = 71; anything else is logged and
skipped). -/
def readControlStep (st : CtrlState) (peerID : String) (stream : List Nat) :
    StepOutcome :=
  match stream with
  | b0 :: b1 :: rest =>
      let len := b0 * 256 + b1
      if len = 0 ∨ len > 4096 then .closeErr "invalid control message length"
      else if rest.length < len then .closeErr "invalid control payload"
      else
        let msg := rest.take len
        let rest' := rest.drop len
        let tag := msg.headD 0
        let body := msg.tail
        if tag = 72 then
          if body.length < 8 then .stopNoClose
          else
            let nonce := beUint (body.take 8)
            let announces := (st.netcfg.filter (fun nc => nc.2.exportFlag)).map
              (fun nc => (nc.1, nc.2.pfx))
            .next
              { st with
                  nonces := fun p => if p = peerID then some nonce else st.nonces p
                  sentAnnounces := st.sentAnnounces ++ announces } rest'
        else if tag = 65 then
          match handleRouteAnnounce body peerID st.table with
          | .crash => .crash
          | .ok t' => .next { st with table := t' } rest'
        else if tag = 87 then
          .next { st with table := handleRouteWithdraw body st.table } rest'
        else if tag = 75 then
          .next (handleKeepalive body peerID st) rest'
        else if tag = 71 then
          .closeErr "peer sent goodbye"
        else
          .next st rest'
  | _ => .closeErr "control stream closed"

/-- The closes that `HandleControlStream` issues for malformed framing: length
outside [1, 4096] and a body truncated by the end of the stream. The close on
a cleanly exhausted stream ("control stream closed") is a transport-level
close, and the close on 'G' ("peer sent goodbye") a graceful one. -/
def isProtocolErrorClose : StepOutcome → Bool
  | .closeErr r =>
      r == "invalid control message length" || r == "invalid control payload"
  | _ => false

/-! ## SendHello wire encoding (control/send.go lines 14-33) -/

/-- The payload `SendHello` builds: only the type byte 'H', no body. -/
def sendHelloBuf : List Nat := [72]

/-- The bytes `SendHello` writes: 2-byte big-endian length, then the payload. -/
def sendHelloFrame : List Nat :=
  [sendHelloBuf.length / 256, sendHelloBuf.length % 256] ++ sendHelloBuf

/-- The 'H' branch of `HandleControlStream` (peer/manager.go lines 170-181):
a body shorter than 8 bytes is rejected ("Hello payload too short"), else the
nonce is the first 8 bytes big-endian. -/
def decodeHelloNonce (body : List Nat) : Option Nat :=
  if body.length < 8 then none else some (beUint (body.take 8))

/-! ## Admin reload command (control/handlers.go lines 55-121, control/state.go) -/

/-- `config.Identity`. -/
structure Identity where
  cert : String
  key : String
  fingerprint : String
deriving DecidableEq, Repr

/-- `config.Config` as the reload handler consumes it (the `Peers` list is
never read by reload). Networks are the entries of the Go map
`map[string]NetworkConfig` in iteration order. -/
structure Config where
  identity : Identity
  networks : List (String × NetworkConfig)

/-- The validation loop of the reload handler (control/handlers.go lines
64-89): duplicate names, empty non-"auto" address, unparseable prefix. The
prefix check embeds `netip.ParsePrefix` as the IPv4 `parseCIDR`. Returns the
first error message, `none` when all networks pass. -/
def validateNetworks (seen : List String) :
    List (String × NetworkConfig) → Option String
  | [] => none
  | (name, nc) :: rest =>
      if name ∈ seen then some ("duplicate network name: " ++ name)
      else if nc.address ≠ "auto" ∧ nc.address = "" then
        some ("network " ++ name ++ " must have address or use auto")
      else if (parseCIDR nc.pfx).isNone then
        some ("invalid prefix for network " ++ name)
      else validateNetworks (name :: seen) rest

/-- Process-wide state the reload handler can reach: the path registered via
`RegisterConfigPath`, the shared net-config snapshot, the route table, and the
tracker's peer ids. -/
structure ReloadState where
  registeredPath : String
  netConfig : List (String × NetworkConfig)
  table : RouteTable
  peers : List String

/-- Result of the reload branch of `Handle`: response status, state afterwards,
`SendRouteToPeer` calls as (peerID, network, prefix), and the path passed to
`config.Load`. -/
structure ReloadResult where
  ok : Bool
  errMsg : String
  state : ReloadState
  sent : List (String × String × String)
  pathRead : String

/-- The `"reload"` branch of `control.Handle` (control/handlers.go lines
55-121). `load` stands for `config.Load` reading the filesystem. The handler
loads from the literal path `"~/.vibepn/config.toml"`, validates, and on
success removes the routes of the loaded identity's fingerprint and sends one
route (metric 1, expiry 30) per network per tracked peer. It never writes the
net-config snapshot or reads the registered path. -/
def handleReload (load : String → Except String Config) (st : ReloadState) :
    ReloadResult :=
  let path := "~/.vibepn/config.toml"
  match load path with
  | .error e =>
      { ok := false, errMsg := "failed to reload config: " ++ e
        state := st, sent := [], pathRead := path }
  | .ok cfg =>
      match validateNetworks [] cfg.networks with
      | some e => { ok := false, errMsg := e, state := st, sent := [], pathRead := path }
      | none =>
          if cfg.identity.fingerprint = "" ∨ cfg.identity.cert = "" ∨
              cfg.identity.key = "" then
            { ok := false, errMsg := "identity section is incomplete"
              state := st, sent := [], pathRead := path }
          else
            { ok := true, errMsg := ""
              state :=
                { st with table := removeRoutesForPeer cfg.identity.fingerprint st.table }
              sent := cfg.networks.flatMap
                (fun nc => st.peers.map (fun p => (p, nc.1, nc.2.pfx)))
              pathRead := path }

/-! ## Route-table lemmas -/

theorem addRouteList_idem (r : Route) (l : List Route) :
    addRouteList r (addRouteList r l) = addRouteList r l := by
  induction l with
  | nil => simp [addRouteList]
  | cons x xs ih =>
      by_cases h : x.pfx = r.pfx ∧ x.peerID = r.peerID
      · simp [addRouteList, h]
      · simp only [addRouteList, if_neg h, ih]

theorem routeKey_mem_addRouteList (r x : Route) (l : List Route)
    (hx : routeKey x ∈ (addRouteList r l).map routeKey) :
    routeKey x ∈ l.map routeKey ∨ routeKey x = routeKey r := by
  induction l with
  | nil => simpa [addRouteList] using hx
  | cons y ys ih =>
      by_cases h : y.pfx = r.pfx ∧ y.peerID = r.peerID
      · simp only [addRouteList, if_pos h, List.map_cons, List.mem_cons] at hx
        rcases hx with hx | hx
        · exact Or.inr hx
        · exact Or.inl (by simp [hx])
      · simp only [addRouteList, if_neg h, List.map_cons, List.mem_cons] at hx
        rcases hx with hx | hx
        · exact Or.inl (by simp [hx])
        · rcases ih hx with h' | h'
          · exact Or.inl (List.mem_cons_of_mem _ h')
          · exact Or.inr h'

theorem addRouteList_keys_nodup (r : Route) (l : List Route)
    (h : (l.map routeKey).Nodup) : ((addRouteList r l).map routeKey).Nodup := by
  induction l with
  | nil => simp [addRouteList]
  | cons x xs ih =>
      simp only [List.map_cons, List.nodup_cons] at h
      by_cases hm : x.pfx = r.pfx ∧ x.peerID = r.peerID
      · have hk : routeKey r = routeKey x := by
          simp [routeKey, hm.1, hm.2]
        simp only [addRouteList, if_pos hm, List.map_cons, List.nodup_cons]
        exact ⟨hk ▸ h.1, h.2⟩
      · simp only [addRouteList, if_neg hm, List.map_cons, List.nodup_cons]
        refine ⟨fun hx => ?_, ih h.2⟩
        rcases routeKey_mem_addRouteList r x xs hx with h' | h'
        · exact h.1 h'
        · exact hm (by
            have h1 : x.pfx = r.pfx := congrArg Prod.fst h'
            have h2 : x.peerID = r.peerID := congrArg Prod.snd h'
            exact ⟨h1, h2⟩)

/-- C6: `RouteTable.AddRoute` is idempotent on the `(network, prefix, peer)`
key — `add(r); add(r)` leaves exactly the table of a single `add(r)`, the
second call replacing the stored route in place — and a table with no
`(network, prefix, peer)` duplicates still has none after `add(r)`. -/
theorem addRoute_idempotent_and_nodup (t : RouteTable) (r : Route)
    (h : NodupTable t) :
    addRoute (addRoute t r) r = addRoute t r ∧ NodupTable (addRoute t r) := by
  constructor
  · funext n
    show (if n = r.network then
            addRouteList r (if n = r.network then addRouteList r (t n) else t n)
          else if n = r.network then addRouteList r (t n) else t n) =
         if n = r.network then addRouteList r (t n) else t n
    by_cases hn : n = r.network
    · simp [hn, addRouteList_idem]
    · simp [hn]
  · intro n
    show ((if n = r.network then addRouteList r (t n) else t n).map routeKey).Nodup
    by_cases hn : n = r.network
    · simpa [hn] using addRouteList_keys_nodup r (t n) (h n)
    · simpa [hn] using h n

/-- Witness for C6 at the empty table and a concrete route. -/
theorem addRoute_idempotent_and_nodup_witness :
    addRoute (addRoute emptyTable
        { network := "corp", pfx := "10.42.0.0/24", peerID := "pA"
          metric := 1, expiresAt := 0 })
        { network := "corp", pfx := "10.42.0.0/24", peerID := "pA"
          metric := 1, expiresAt := 0 } =
      addRoute emptyTable
        { network := "corp", pfx := "10.42.0.0/24", peerID := "pA"
          metric := 1, expiresAt := 0 } ∧
    NodupTable (addRoute emptyTable
        { network := "corp", pfx := "10.42.0.0/24", peerID := "pA"
          metric := 1, expiresAt := 0 }) :=
  addRoute_idempotent_and_nodup emptyTable _ (fun _ => by simp [emptyTable])

theorem addRouteList_no_key_match (r : Route) (l : List Route)
    (h : ∀ x ∈ l, x.peerID ≠ r.peerID) : addRouteList r l = l ++ [r] := by
  induction l with
  | nil => rfl
  | cons x xs ih =>
      have hx : x.peerID ≠ r.peerID := h x (List.mem_cons_self x xs)
      have hm : ¬(x.pfx = r.pfx ∧ x.peerID = r.peerID) := fun hc => hx hc.2
      simp only [addRouteList, if_neg hm, List.cons_append, List.cons.injEq,
        true_and]
      exact ih (fun y hy => h y (List.mem_cons_of_mem x hy))

/-- C7 counterexample: a table holding another route of the same peer. Adding
`(n, 10.2.0.0/24, p)` and then removing peer `p` also deletes the pre-existing
route `(n, 10.1.0.0/24, p)`, so the table does not return to its prior state. -/
theorem addRoute_then_removeRoutesForPeer_not_identity :
    removeRoutesForPeer "p"
        (addRoute
          (fun n => if n = "n" then
              [{ network := "n", pfx := "10.1.0.0/24", peerID := "p"
                 metric := 1, expiresAt := 0 }] else [])
          { network := "n", pfx := "10.2.0.0/24", peerID := "p"
            metric := 1, expiresAt := 0 }) ≠
      (fun n => if n = "n" then
          [{ network := "n", pfx := "10.1.0.0/24", peerID := "p"
             metric := 1, expiresAt := 0 }] else []) := by
  intro hEq
  exact absurd (congrFun hEq "n") (by decide)

/-- C7 (amended): when the table holds no route of peer `r.peerID`,
`add(r)` followed by `remove_by_peer(r.peerID)` restores the table exactly. -/
theorem addRoute_then_removeRoutesForPeer_restores (t : RouteTable) (r : Route)
    (h : ∀ n, ∀ x ∈ t n, x.peerID ≠ r.peerID) :
    removeRoutesForPeer r.peerID (addRoute t r) = t := by
  funext n
  show List.filter _ (if n = r.network then addRouteList r (t n) else t n) = t n
  have hfilter : ∀ m : String,
      (t m).filter (fun x => x.peerID ≠ r.peerID) = t m := by
    intro m
    refine List.filter_eq_self.mpr (fun x hx => ?_)
    simpa using h m x hx
  by_cases hn : n = r.network
  · rw [if_pos hn, addRouteList_no_key_match r (t n) (h n), List.filter_append]
    simp [hfilter n]
    exact fun a ha => h n a ha
  · rw [if_neg hn]
    exact hfilter n

/-- Witness for C7's amended statement at the empty table. -/
theorem addRoute_then_removeRoutesForPeer_restores_witness :
    removeRoutesForPeer "pA"
        (addRoute emptyTable
          { network := "corp", pfx := "10.42.0.0/24", peerID := "pA"
            metric := 1, expiresAt := 0 }) = emptyTable :=
  addRoute_then_removeRoutesForPeer_restores emptyTable
    { network := "corp", pfx := "10.42.0.0/24", peerID := "pA"
      metric := 1, expiresAt := 0 }
    (fun _ x hx => by simp [emptyTable] at hx)

theorem lookupLoop_eq_find (dst : Nat) (l : List Route) :
    lookupLoop dst l = l.find? (routeMatches dst) := by
  induction l with
  | nil => rfl
  | cons r rs ih =>
      cases hp : parseCIDR r.pfx with
      | none =>
          have hm : routeMatches dst r = false := by simp [routeMatches, hp]
          simp [lookupLoop, hp, ih, List.find?_cons, hm]
      | some pr =>
          rcases pr with ⟨ip, n⟩
          by_cases hc : cidrContains ip n dst = true
          · have hm : routeMatches dst r = true := by simp [routeMatches, hp, hc]
            simp [lookupLoop, hp, hc, List.find?_cons, hm]
          · have hm : routeMatches dst r = false := by
              simp only [routeMatches, hp]
              exact Bool.not_eq_true _ ▸ (by simpa using hc)
            simp [lookupLoop, hp, List.find?_cons, hm]
            simp only [Bool.not_eq_true] at hc
            simp [hc, ih]

/-- C8: the dispatcher's forwarding lookup is first-match in insertion order —
it returns exactly the first element of `routes_for(network, none)` whose
prefix parses and contains the destination (so any longer-prefix route further
down the list is irrelevant), and returns none exactly when no route's
prefix contains the destination. -/
theorem lookupRoute_first_match (t : RouteTable) (network : String) (dst : Nat) :
    lookupRoute t network dst =
      (routesForNetwork t network "").find? (routeMatches dst) ∧
    (lookupRoute t network dst = none ↔
      ∀ r ∈ routesForNetwork t network "", routeMatches dst r = false) := by
  refine ⟨lookupLoop_eq_find dst _, ?_⟩
  rw [lookupRoute, lookupLoop_eq_find]
  simp [List.find?_eq_none]

/-! ## Registry theorems -/

/-- C1: after `Registry.Add` the registry maps the peer to exactly one
connection; a duplicate with no recorded peer nonce closes the incoming
connection and keeps the existing one; with a recorded peer nonce the incoming
connection wins exactly when `myNonce < peerNonce` (the loser is closed), so
on equal nonces the incoming connection loses. -/
theorem registryAdd_single_session_tiebreak
    (conns peerNonces : String → Option Nat) (peerID : String)
    (conn myNonce : Nat) :
    ((registryAdd conns peerNonces peerID conn myNonce).conns peerID).isSome = true ∧
    (∀ ex, conns peerID = some ex → peerNonces peerID = none →
      (registryAdd conns peerNonces peerID conn myNonce).conns peerID = some ex ∧
      (conn, "duplicate connection (no peer nonce)") ∈
        (registryAdd conns peerNonces peerID conn myNonce).closed) ∧
    (∀ ex pn, conns peerID = some ex → peerNonces peerID = some pn →
      (myNonce < pn →
        (registryAdd conns peerNonces peerID conn myNonce).conns peerID = some conn ∧
        (ex, "duplicate connection (loser)") ∈
          (registryAdd conns peerNonces peerID conn myNonce).closed) ∧
      (¬ myNonce < pn →
        (registryAdd conns peerNonces peerID conn myNonce).conns peerID = some ex ∧
        (conn, "duplicate connection (loser)") ∈
          (registryAdd conns peerNonces peerID conn myNonce).closed) ∧
      (conn ≠ ex →
        ((registryAdd conns peerNonces peerID conn myNonce).conns peerID = some conn ↔
          myNonce < pn))) := by
  unfold registryAdd
  rcases hc : conns peerID with _ | ex0
  · simp [hc]
  · rcases hn : peerNonces peerID with _ | pn0
    · simp [hc, hn]
    · by_cases hlt : myNonce < pn0
      · simp [hc, hn, hlt]
      · simp [hc, hn, hlt]
        intro hne h
        exact hne (by simpa using h.symm)

/-- Witness for C1: peer "a" holds connection 1 with recorded peer nonce 5;
an incoming connection 2 with local nonce 3 wins the tie-break. -/
theorem registryAdd_single_session_tiebreak_witness :
    (registryAdd (fun p => if p = "a" then some 1 else none)
        (fun p => if p = "a" then some 5 else none) "a" 2 3).conns "a" = some 2 := by
  have h := registryAdd_single_session_tiebreak
    (fun p => if p = "a" then some 1 else none)
    (fun p => if p = "a" then some 5 else none) "a" 2 3
  exact ((h.2.2 1 5 (by simp) (by simp)).1 (by decide)).1

/-! ## TOFU theorems -/

/-- C2: with a fingerprint pinned for the peer name, `verifyTOFU` accepts
exactly a parseable leading certificate whose fingerprint equals the pinned
one, in all cases leaving the store untouched; and for any store, name and
chain, an existing store entry is never changed by the callback. -/
theorem verifyTOFU_pinned_match_no_overwrite (store : TofuStore)
    (peerName : String) (certs : List Cert) (pinned : String)
    (hpin : store peerName = some pinned) :
    ((verifyTOFU store peerName certs).1 = true ↔
      ∃ c cs, certs = c :: cs ∧ c.parseOk = true ∧ c.fingerprint = pinned) ∧
    (verifyTOFU store peerName certs).2 = store ∧
    (∀ (store' : TofuStore) (nm nm' : String) (certs' : List Cert) (fp : String),
      store' nm' = some fp → (verifyTOFU store' nm certs').2 nm' = some fp) := by
  refine ⟨?_, ?_, ?_⟩
  · cases certs with
    | nil => simp [verifyTOFU]
    | cons c cs =>
        by_cases hp : c.parseOk
        · by_cases hf : pinned = c.fingerprint
          · simp [verifyTOFU, hp, hpin, hf]
          · simp [verifyTOFU, hp, hpin, hf]
            exact fun h => absurd h.symm hf
        · simp [verifyTOFU, hp]
  · cases certs with
    | nil => rfl
    | cons c cs =>
        by_cases hp : c.parseOk
        · by_cases hf : pinned = c.fingerprint
          · simp [verifyTOFU, hp, hpin, hf]
          · simp [verifyTOFU, hp, hpin, hf]
        · simp [verifyTOFU, hp]
  · intro store' nm nm' certs' fp hfp
    cases certs' with
    | nil => simpa [verifyTOFU] using hfp
    | cons c cs =>
        by_cases hp : c.parseOk
        · rcases hs : store' nm with _ | pinned'
          · by_cases he : nm' = nm
            · rw [he] at hfp
              rw [hfp] at hs
              exact absurd hs (by simp)
            · simpa [verifyTOFU, hp, hs, he] using hfp
          · by_cases hf : pinned' = c.fingerprint <;>
              simpa [verifyTOFU, hp, hs, hf] using hfp
        · simpa [verifyTOFU, hp] using hfp

/-- Witness for C2: a store pinning "f1" for peer "a" and a matching
certificate; the callback leaves the store unchanged. -/
theorem verifyTOFU_pinned_match_no_overwrite_witness :
    (verifyTOFU (fun p => if p = "a" then some "f1" else none) "a"
      [{ parseOk := true, fingerprint := "f1", notBefore := 0, notAfter := 10 }]).2 =
      (fun p => if p = "a" then some "f1" else none) :=
  (verifyTOFU_pinned_match_no_overwrite
    (fun p => if p = "a" then some "f1" else none) "a"
    [{ parseOk := true, fingerprint := "f1", notBefore := 0, notAfter := 10 }]
    "f1" (by simp)).2.1

/-- C3: counter-evidence. The verification callback never reads the
certificate's validity window: a certificate whose `notAfter` (10) lies before
the current instant (100) is accepted both on first contact and when its
fingerprint matches the pinned entry, where the claim requires rejection. -/
theorem verifyTOFU_accepts_expired_cert :
    ({ parseOk := true, fingerprint := "f2", notBefore := 0, notAfter := 10 : Cert}.notAfter
        < (100 : Int)) ∧
    (verifyTOFU (fun _ => none) "peerB"
      [{ parseOk := true, fingerprint := "f2", notBefore := 0, notAfter := 10 }]).1 = true ∧
    (verifyTOFU (fun p => if p = "peerB" then some "f2" else none) "peerB"
      [{ parseOk := true, fingerprint := "f2", notBefore := 0, notAfter := 10 }]).1 = true := by
  refine ⟨by norm_num, rfl, by simp [verifyTOFU]⟩

/-! ## Control framing theorems -/

/-- C4: counter-evidence. `SendHello` writes the frame `00 01 48` — a Hello
with an empty body, not an 8-byte big-endian nonce — and the control reader's
'H' branch rejects that body as too short for any nonce, for every registry
state: the encode-then-decode round trip cannot recover any nonce. -/
theorem sendHello_frame_has_no_nonce_body :
    sendHelloFrame = [0, 1, 72] ∧
    decodeHelloNonce (sendHelloFrame.drop 3) = none ∧
    (∀ (nonces : String → Option Nat) (table : RouteTable) (live : List String)
        (netcfg : List (String × NetworkConfig)) (sent : List (String × String))
        (peerID : String),
      readControlStep ⟨nonces, table, live, netcfg, sent⟩ peerID sendHelloFrame =
        .stopNoClose) :=
  ⟨rfl, rfl, fun _ _ _ _ _ _ => rfl⟩

/-- C5 counterexample: a well-framed message with the unknown type tag 88
('X') is logged and skipped — the reader continues with the session open —
although the claim requires a protocol-error close on unknown tags. -/
theorem unknown_tag_does_not_close_session :
    readControlStep ⟨fun _ => none, emptyTable, [], [], []⟩ "p" [0, 1, 88] =
      .next ⟨fun _ => none, emptyTable, [], [], []⟩ [] ∧
    isProtocolErrorClose
      (readControlStep ⟨fun _ => none, emptyTable, [], [], []⟩ "p" [0, 1, 88]) =
      false :=
  ⟨rfl, rfl⟩

theorem readControlStep_not_proto_of_valid (st : CtrlState) (peerID : String)
    (b0 b1 : Nat) (rest : List Nat)
    (h1 : ¬(b0 * 256 + b1 = 0 ∨ b0 * 256 + b1 > 4096))
    (h2 : ¬(rest.length < b0 * 256 + b1)) :
    isProtocolErrorClose (readControlStep st peerID (b0 :: b1 :: rest)) = false := by
  simp only [readControlStep]
  rw [if_neg h1, if_neg h2]
  by_cases t1 : (rest.take (b0 * 256 + b1)).headD 0 = 72
  · rw [if_pos t1]
    by_cases hb : (rest.take (b0 * 256 + b1)).tail.length < 8
    · rw [if_pos hb]; rfl
    · rw [if_neg hb]; rfl
  · rw [if_neg t1]
    by_cases t2 : (rest.take (b0 * 256 + b1)).headD 0 = 65
    · rw [if_pos t2]
      cases handleRouteAnnounce (rest.take (b0 * 256 + b1)).tail peerID st.table with
      | crash => rfl
      | ok t' => rfl
    · rw [if_neg t2]
      by_cases t3 : (rest.take (b0 * 256 + b1)).headD 0 = 87
      · rw [if_pos t3]; rfl
      · rw [if_neg t3]
        by_cases t4 : (rest.take (b0 * 256 + b1)).headD 0 = 75
        · rw [if_pos t4]; rfl
        · rw [if_neg t4]
          by_cases t5 : (rest.take (b0 * 256 + b1)).headD 0 = 71
          · rw [if_pos t5]; decide
          · rw [if_neg t5]; rfl

/-- C5 (amended): the control reader closes the session with a protocol error
exactly when the 2-byte length prefix is outside [1, 4096] or the declared
body is cut short by the end of the stream. An exhausted stream closes with a
transport reason, a Goodbye closes gracefully, and frames whose bodies are
merely malformed (under-length Hello, truncated announce tuples, unknown
type tags) never produce a protocol-error close. -/
theorem control_reader_protocol_error_iff :
    (∀ (st : CtrlState) (peerID : String),
      isProtocolErrorClose (readControlStep st peerID []) = false) ∧
    (∀ (st : CtrlState) (peerID : String) (b : Nat),
      isProtocolErrorClose (readControlStep st peerID [b]) = false) ∧
    (∀ (st : CtrlState) (peerID : String) (b0 b1 : Nat) (rest : List Nat),
      isProtocolErrorClose (readControlStep st peerID (b0 :: b1 :: rest)) = true ↔
        (b0 * 256 + b1 = 0 ∨ b0 * 256 + b1 > 4096 ∨
          rest.length < b0 * 256 + b1)) := by
  refine ⟨fun st peerID => rfl, fun st peerID b => rfl,
    fun st peerID b0 b1 rest => ?_⟩
  by_cases h1 : b0 * 256 + b1 = 0 ∨ b0 * 256 + b1 > 4096
  · constructor
    · intro _
      rcases h1 with h | h
      · exact Or.inl h
      · exact Or.inr (Or.inl h)
    · intro _
      simp only [readControlStep]
      rw [if_pos h1]
      rfl
  · by_cases h2 : rest.length < b0 * 256 + b1
    · constructor
      · intro _
        exact Or.inr (Or.inr h2)
      · intro _
        simp only [readControlStep]
        rw [if_neg h1, if_pos h2]
        rfl
    · rw [readControlStep_not_proto_of_valid st peerID b0 b1 rest h1 h2]
      simp only [Bool.false_eq_true, false_iff]
      omega

/-- C10: counter-evidence. On the six-byte announce body
`[0, 255, 0, 0, 0, 0]` (empty network name, declared prefix length 255) the
decoder's slice `body[cursor+1 : cursor+1+prefixLen]` reaches index 257 of a
six-byte slice: a runtime out-of-range panic, where the claim requires the
truncated body to be rejected with all indices in bounds. -/
theorem handleRouteAnnounce_out_of_range :
    handleRouteAnnounce [0, 255, 0, 0, 0, 0] "p" emptyTable = .crash := by
  unfold handleRouteAnnounce
  norm_num
  unfold announceLoop
  norm_num

/-- C9: counter-evidence. With the registered config path left at its default
and a loadable configuration at the literal path `~/.vibepn/config.toml`
holding one non-exported network, the reload handler reports success, reads
the hardcoded path rather than the registered one, leaves the shared
net-config snapshot unchanged (still empty), and announces the non-exported
network to the tracked peer. -/
theorem reload_ignores_registered_path_and_snapshot :
    (handleReload
        (fun path =>
          if path = "~/.vibepn/config.toml" then
            .ok { identity := { cert := "c.pem", key := "k.pem", fingerprint := "fpA" }
                  networks := [("edge",
                    { address := "auto", pfx := "10.43.0.0/24", exportFlag := false })] }
          else .error "no such file")
        { registeredPath := "/etc/vibepn/config.toml", netConfig := []
          table := emptyTable, peers := ["p1"] }).ok = true ∧
    (handleReload
        (fun path =>
          if path = "~/.vibepn/config.toml" then
            .ok { identity := { cert := "c.pem", key := "k.pem", fingerprint := "fpA" }
                  networks := [("edge",
                    { address := "auto", pfx := "10.43.0.0/24", exportFlag := false })] }
          else .error "no such file")
        { registeredPath := "/etc/vibepn/config.toml", netConfig := []
          table := emptyTable, peers := ["p1"] }).pathRead ≠ "/etc/vibepn/config.toml" ∧
    (handleReload
        (fun path =>
          if path = "~/.vibepn/config.toml" then
            .ok { identity := { cert := "c.pem", key := "k.pem", fingerprint := "fpA" }
                  networks := [("edge",
                    { address := "auto", pfx := "10.43.0.0/24", exportFlag := false })] }
          else .error "no such file")
        { registeredPath := "/etc/vibepn/config.toml", netConfig := []
          table := emptyTable, peers := ["p1"] }).state.netConfig = [] ∧
    (handleReload
        (fun path =>
          if path = "~/.vibepn/config.toml" then
            .ok { identity := { cert := "c.pem", key := "k.pem", fingerprint := "fpA" }
                  networks := [("edge",
                    { address := "auto", pfx := "10.43.0.0/24", exportFlag := false })] }
          else .error "no such file")
        { registeredPath := "/etc/vibepn/config.toml", netConfig := []
          table := emptyTable, peers := ["p1"] }).sent =
      [("p1", "edge", "10.43.0.0/24")] := by
  decide

end VibePN
